import Mathlib

/-!
Verification of the schema-reconciliation core of the genesilico-ocr
repository: the dotted-path accessors (`get_field_value` / `set_field_value`
in `app/schemas/trf_schema.py`), the array normalizer
(`app/utils/normalization.py`), the recursive extraction merge
(`AIFieldExtractor._merge_extracted_data` in `app/core/field_extractor.py`),
the validation engine (`validate_trf_data`, `SchemaValidator`), the conflict
detectors (`app/utils/validation_utils.py`) and the failure paths of the
document-processing orchestrator (`app/core/document_processor.py`).

Python values are embedded as the tree type `JVal` (mappings are ordered
association lists with string keys, matching dicts produced by JSON
parsing); Python `None` is `JVal.null`.  Operations that can raise in
Python return `Except PyErr`; operations that cannot raise are plain
functions.  String primitives (`str.isdigit`, `int(...)`, `str.strip`,
`str.lower`, `str.split`) are modelled over ASCII character data, which is
the character set appearing in schema paths and is the reading used
throughout.
-/

namespace GOCR

/-- Embedded Python/JSON value: `null`, strings, integers, booleans,
ordered sequences (lists) and keyed mappings (dicts, as association lists
of string keys in insertion order). -/
inductive JVal where
  | null : JVal
  | str (s : String) : JVal
  | num (n : Int) : JVal
  | bool (b : Bool) : JVal
  | arr (xs : List JVal) : JVal
  | obj (fields : List (String × JVal)) : JVal
  deriving Repr

mutual

/-- Structural equality test on embedded values. -/
def JVal.beq : JVal → JVal → Bool
  | .null, .null => true
  | .str a, .str b => a == b
  | .num a, .num b => a == b
  | .bool a, .bool b => a == b
  | .arr xs, .arr ys => JVal.beqList xs ys
  | .obj a, .obj b => JVal.beqObj a b
  | _, _ => false

/-- Elementwise equality of value lists. -/
def JVal.beqList : List JVal → List JVal → Bool
  | [], [] => true
  | x :: xs, y :: ys => JVal.beq x y && JVal.beqList xs ys
  | _, _ => false

/-- Elementwise equality of field lists. -/
def JVal.beqObj : List (String × JVal) → List (String × JVal) → Bool
  | [], [] => true
  | (k1, v1) :: xs, (k2, v2) :: ys => k1 == k2 && JVal.beq v1 v2 && JVal.beqObj xs ys
  | _, _ => false

end

mutual

theorem JVal.beq_iff : ∀ a b : JVal, JVal.beq a b = true ↔ a = b
  | .null, b => by cases b <;> simp [JVal.beq]
  | .str a, b => by cases b <;> simp [JVal.beq]
  | .num a, b => by cases b <;> simp [JVal.beq]
  | .bool a, b => by cases b <;> simp [JVal.beq]
  | .arr xs, b => by
      cases b <;> simp [JVal.beq]
      exact JVal.beqList_iff xs _
  | .obj a, b => by
      cases b <;> simp [JVal.beq]
      exact JVal.beqObj_iff a _

theorem JVal.beqList_iff : ∀ xs ys : List JVal, JVal.beqList xs ys = true ↔ xs = ys
  | [], ys => by cases ys <;> simp [JVal.beqList]
  | x :: xs, ys => by
      cases ys with
      | nil => simp [JVal.beqList]
      | cons y ys =>
          simp only [JVal.beqList, Bool.and_eq_true, List.cons.injEq]
          rw [JVal.beq_iff x y, JVal.beqList_iff xs ys]

theorem JVal.beqObj_iff : ∀ a b : List (String × JVal), JVal.beqObj a b = true ↔ a = b
  | [], b => by cases b <;> simp [JVal.beqObj]
  | (k1, v1) :: xs, b => by
      cases b with
      | nil => simp [JVal.beqObj]
      | cons p ys =>
          obtain ⟨k2, v2⟩ := p
          simp only [JVal.beqObj, Bool.and_eq_true, List.cons.injEq, Prod.mk.injEq,
            beq_iff_eq]
          rw [JVal.beq_iff v1 v2, JVal.beqObj_iff xs ys]

end

instance : DecidableEq JVal := fun a b =>
  decidable_of_iff (JVal.beq a b = true) (JVal.beq_iff a b)

/-- Association-list field list of a mapping. -/
abbrev Obj := List (String × JVal)

/-- Python exception kinds relevant to the embedded code. -/
inductive PyErr where
  | valueError | indexError | typeError | attributeError | keyError
  deriving Repr, DecidableEq

/-- `d[k]` lookup on a dict: first binding for `k`, if any. -/
def objLookup (k : String) : Obj → Option JVal
  | [] => none
  | (k1, v) :: rest => if k1 = k then some v else objLookup k rest

/-- `d.get(k)`: lookup with Python `None` (`JVal.null`) as default. -/
def objGet (k : String) (o : Obj) : JVal :=
  (objLookup k o).getD .null

/-- `d[k] = v` on a dict: replace the first binding in place, or append a
new binding at the end (dict insertion order). -/
def objSet (k : String) (v : JVal) : Obj → Obj
  | [] => [(k, v)]
  | (k1, v1) :: rest => if k1 = k then (k, v) :: rest else (k1, v1) :: objSet k v rest

/-- Python truthiness (`bool(v)`) of an embedded value. -/
def pyTruthy : JVal → Bool
  | .null => false
  | .str s => s != ""
  | .num n => n != 0
  | .bool b => b
  | .arr xs => !xs.isEmpty
  | .obj o => !o.isEmpty

/-- Characters removed by Python `str.strip()` with no argument
(ASCII whitespace). -/
def isSpaceChar (c : Char) : Bool :=
  c = ' ' || c = '\t' || c = '\n' || c = '\x0d' || c = '\x0b' || c = '\x0c'

/-- `str.strip()` on the character data. -/
def stripChars (l : List Char) : List Char :=
  ((l.dropWhile isSpaceChar).reverse.dropWhile isSpaceChar).reverse

/-- `s.strip()`. -/
def pyStrip (s : String) : String := ⟨stripChars s.data⟩

/-- ASCII lower-casing of one character (`str.lower()` restricted to the
ASCII range used by the schema). -/
def lowerChar (c : Char) : Char :=
  if 'A' ≤ c && c ≤ 'Z' then Char.ofNat (c.toNat + 32) else c

/-- `s.lower()`. -/
def pyLower (s : String) : String := ⟨s.data.map lowerChar⟩

/-- `s.isdigit()`: nonempty and all decimal digits (ASCII reading). -/
def pyIsDigit (s : String) : Bool :=
  !s.isEmpty && s.data.all Char.isDigit

/-- Value of a string of decimal digits (the `int(s)` of a digit string). -/
def digitsToNat (l : List Char) : Nat :=
  l.foldl (fun n c => n * 10 + (c.toNat - 48)) 0

/-- `int(s)` for an arbitrary string: optional surrounding whitespace,
optional single sign, then decimal digits; `none` models `ValueError`. -/
def pyParseInt (s : String) : Option Int :=
  match stripChars s.data with
  | '-' :: rest =>
      if rest ≠ [] && rest.all Char.isDigit then some (-(digitsToNat rest : Int)) else none
  | '+' :: rest =>
      if rest ≠ [] && rest.all Char.isDigit then some (digitsToNat rest : Int) else none
  | l =>
      if l ≠ [] && l.all Char.isDigit then some (digitsToNat l : Int) else none

/-- `s.split(c)` for a one-character separator, on character data. -/
def splitChar (c : Char) : List Char → List (List Char)
  | [] => [[]]
  | x :: xs =>
      let r := splitChar c xs
      if x = c then [] :: r
      else
        match r with
        | [] => [[x]]
        | h :: t => (x :: h) :: t

/-- `s.split(c)` packaged on strings. -/
def pySplit (c : Char) (s : String) : List String :=
  (splitChar c s.data).map fun l => ⟨l⟩

/-- `field_path.split('.')`. -/
def splitPath (p : String) : List String := pySplit '.' p

/-- `xs[i]` for a nonnegative index with Python bounds behavior: the
element when `i < len(xs)`, else `IndexError`. -/
def pyIdx (xs : List JVal) (i : Nat) : Except PyErr JVal :=
  if h : i < xs.length then .ok (xs.get ⟨i, h⟩) else .error .indexError

/-- One iteration of the `get_field_value` loop
(`app/schemas/trf_schema.py:127-141`): `None` short-circuits; a digit
segment indexes a list (absent past the end); a dict is looked up by key
(`dict.get`, so a digit segment is a literal key there); anything else
resolves to absent. -/
def getStep : JVal → String → JVal
  | .null, _ => .null
  | .arr xs, part =>
      if pyIsDigit part then
        (xs.getD (digitsToNat part.data) .null)
      else .null
  | .obj o, part => objGet part o
  | _, _ => .null

/-- `get_field_value(data, field_path)` (`app/schemas/trf_schema.py:119`):
empty path gives `None`; otherwise fold the loop body over the dotted
segments.  The Python early `return None` is absorbed by `getStep`
mapping `null` to `null`. -/
def getFieldValue (data : JVal) (fieldPath : String) : JVal :=
  if fieldPath = "" then .null
  else (splitPath fieldPath).foldl getStep data

/-- `xs[i] = v` with Python index semantics (negative indices count from
the end; out of range is `IndexError`). -/
def pyListSet (xs : List JVal) (i : Int) (v : JVal) : Except PyErr (List JVal) :=
  let j := if i < 0 then i + xs.length else i
  if 0 ≤ j ∧ j < xs.length then .ok (xs.set j.toNat v) else .error .indexError

/-- `xs[i]` with Python index semantics (negative indices count from the
end). -/
def pyListGet (xs : List JVal) (i : Int) : Except PyErr JVal :=
  let j := if i < 0 then i + xs.length else i
  if 0 ≤ j ∧ j < xs.length then .ok (xs.getD j.toNat .null) else .error .indexError

/-- `while len(xs) <= index: xs.append(p)`. -/
def growTo (xs : List JVal) (i : Int) (p : JVal) : List JVal :=
  if (xs.length : Int) ≤ i then xs ++ List.replicate (i + 1 - xs.length).toNat p else xs

/-- A path segment is treated as a bracket index when it contains both
`[` and `]` (`set_field_value`). -/
def isBracketPart (part : String) : Bool :=
  part.data.contains '[' && part.data.contains ']'

/-- `part.split('[')[0]`. -/
def bracketArrayName (part : String) : String :=
  (pySplit '[' part).headD ""

/-- `part.split('[')[1].split(']')[0]`. -/
def bracketIndexStr (part : String) : String :=
  (pySplit ']' ((pySplit '[' part).getD 1 "")).headD ""

/-- `if array_name not in current: current[array_name] = []` — the
unconditional first step of both bracket branches of `set_field_value`. -/
def ensureKeyList (an : String) (cur : Obj) : Obj :=
  match objLookup an cur with
  | none => objSet an (.arr []) cur
  | some _ => cur

/-- The terminal bracket branch of `set_field_value`
(`app/schemas/trf_schema.py:187-202`): parse the index (`ValueError` is
caught, returning the partially updated mapping), grow the list with
`None` placeholders, then assign.  When the named field holds a string or
a mapping that would need growing, Python raises an uncaught
`AttributeError` from `.append`; an integer index applied to a
string-keyed mapping is modelled as an uncaught error (Python would
store under an integer key, which cannot arise in the string-keyed
record trees this code manipulates). -/
def setTermBracket (cur : Obj) (part : String) (value : JVal) : Except PyErr Obj :=
  let an := bracketArrayName part
  let cur1 := ensureKeyList an cur
  match pyParseInt (bracketIndexStr part) with
  | none => .ok cur1
  | some idx =>
    match objLookup an cur1 with
    | some (.arr xs) =>
        let xs1 := growTo xs idx .null
        (match pyListSet xs1 idx value with
         | .ok xs2 => .ok (objSet an (.arr xs2) cur1)
         | .error _ => .ok (objSet an (.arr xs1) cur1))
    | some (.str s) =>
        if (s.length : Int) ≤ idx then .error .attributeError else .ok cur1
    | some (.obj o) =>
        if (o.length : Int) ≤ idx then .error .attributeError else .error .keyError
    | some _ => .ok cur1
    | none => .ok cur1

/-- Recursive core of `set_field_value` over the remaining dotted
segments (the Python loop over `parts[:-1]` plus the terminal
assignment).  An early Python `return` inside the caught exception
branches is `.ok` with the mutations performed so far; uncaught
exceptions are `.error`. -/
def setGo (cur : Obj) : List String → JVal → Except PyErr Obj
  | [], _ => .ok cur
  | [last], value =>
      if isBracketPart last then setTermBracket cur last value
      else .ok (objSet last value cur)
  | part :: rest, value =>
      if isBracketPart part then
        let an := bracketArrayName part
        let cur1 := ensureKeyList an cur
        match pyParseInt (bracketIndexStr part) with
        | none => .ok cur1
        | some idx =>
          match objLookup an cur1 with
          | some (.arr xs) =>
              let xs1 := growTo xs idx (.obj [])
              (match pyListGet xs1 idx with
               | .error _ => .ok (objSet an (.arr xs1) cur1)
               | .ok elem =>
                 let xs2 := match elem with
                   | .obj _ => xs1
                   | _ => ((pyListSet xs1 idx (.obj [])).toOption.getD xs1)
                 let sub := match (pyListGet xs2 idx).toOption.getD (.obj []) with
                   | .obj o => o
                   | _ => []
                 match setGo sub rest value with
                 | .ok sub2 =>
                     .ok (objSet an
                       (.arr ((pyListSet xs2 idx (.obj sub2)).toOption.getD xs2)) cur1)
                 | .error e => .error e)
          | some (.str s) =>
              if (s.length : Int) ≤ idx then .error .attributeError else .ok cur1
          | some (.obj o) =>
              if (o.length : Int) ≤ idx then .error .attributeError else .error .keyError
          | some _ => .ok cur1
          | none => .ok cur1
      else
        let sub := match objLookup part cur with
          | some (.obj o) => o
          | _ => ([] : Obj)
        match setGo sub rest value with
        | .ok sub2 => .ok (objSet part (.obj sub2) cur)
        | .error e => .error e

/-- `set_field_value(data, field_path, value)`
(`app/schemas/trf_schema.py:145-205`), as a function from the root value
to the updated root.  The guard `not field_path or not data or not
isinstance(data, dict)` silently returns the root unchanged (and an
empty mapping is falsy, so it is rejected by the same guard as a
non-mapping root). -/
def setFieldValue (data : JVal) (fieldPath : String) (value : JVal) : Except PyErr JVal :=
  match data with
  | .obj o =>
      if fieldPath = "" ∨ o.isEmpty then .ok data
      else
        match setGo o (splitPath fieldPath) value with
        | .ok o2 => .ok (.obj o2)
        | .error e => .error e
  | v => .ok v

/-! ## Array normalization (`app/utils/normalization.py`) -/

/-- `isinstance(v, str)`. -/
def isStrV : JVal → Bool
  | .str _ => true
  | _ => false

/-- `is_numeric_dict(d)`: a dict whose keys are all digit strings
(vacuously true for the empty dict). -/
def isNumericDict : JVal → Bool
  | .obj o => o.all fun kv => pyIsDigit kv.fst
  | _ => false

/-- Stable insertion of a field in front of the first strictly larger
numeric key (so `sorted(..., key=lambda x: int(x[0]))` keeps insertion
order among equal keys). -/
def insertByNumKey (x : String × JVal) : Obj → Obj
  | [] => [x]
  | q :: rest =>
      if digitsToNat q.fst.data < digitsToNat x.fst.data then q :: insertByNumKey x rest
      else x :: q :: rest

/-- `sorted(value.items(), key=lambda x: int(x[0]))` as a stable
insertion sort on the numeric value of the keys. -/
def sortByNumKey (l : Obj) : Obj := l.foldr insertByNumKey []

/-- The two repairs in the `normalize_array_fields` loop body: a
numeric-keyed dict becomes the list of its values ordered by numeric
key; a string becomes `[s.strip()]`, or `[]` when the stripped string is
empty; anything else is left unchanged. -/
def normalizeValue (v : JVal) : JVal :=
  if isNumericDict v then
    match v with
    | .obj o => .arr ((sortByNumKey o).map Prod.snd)
    | w => w
  else
    match v with
    | .str s => if pyStrip s = "" then .arr [] else .arr [.str (pyStrip s)]
    | w => w

/-- Loop body of `normalize_array_fields` for a top-level declared array
field (the `"Sample"` entry of `array_fields`). -/
def normTop (o : Obj) (key : String) : Obj :=
  match objLookup key o with
  | some v => if isNumericDict v || isStrV v then objSet key (normalizeValue v) o else o
  | none => o

/-- Loop body of `normalize_array_fields` for a two-segment declared
array field (the `"FamilyHistory.familyMember"` entry): navigate with
`obj.get(part, {})`; skip unless the parent is a dict containing the
last key. -/
def normNestedInner (o : Obj) (k1 k2 : String) (o1 : Obj) : Obj :=
  match objLookup k2 o1 with
  | some v =>
      if isNumericDict v || isStrV v
      then objSet k1 (.obj (objSet k2 (normalizeValue v) o1)) o else o
  | none => o

/-- Dispatch of `normNested` on the parent value
(`obj.get(part, {})` navigation: skip unless the parent is a dict). -/
def normNested (o : Obj) (k1 k2 : String) : Obj :=
  match objLookup k1 o with
  | some (.obj o1) => normNestedInner o k1 k2 o1
  | _ => o

/-- The final safety net of `normalize_array_fields`: if `Sample` is a
dict, force-wrap it into a one-element list. -/
def sampleSafetyNet (o : Obj) : Obj :=
  match objLookup "Sample" o with
  | some (.obj s) => objSet "Sample" (.arr [.obj s]) o
  | _ => o

/-- Field list of the record after `normalize_array_fields(trf_data)`:
the loop over `array_fields = ["Sample", "FamilyHistory.familyMember"]`
followed by the `Sample` safety net. -/
def normFields (o : Obj) : Obj :=
  sampleSafetyNet (normNested (normTop o "Sample") "FamilyHistory" "familyMember")

/-- `normalize_array_fields(trf_data)` (`app/utils/normalization.py:3`).
Its signature requires a dict; non-dict inputs are returned unchanged
(Python would raise on them before doing anything useful). -/
def normalizeArrayFields : JVal → JVal
  | .obj o => .obj (normFields o)
  | v => v

/-! ## Validation engine (`trf_schema.py:207-235`,
`app/core/schema_validator.py`) -/

/-- `REQUIRED_FIELDS` of `app/schemas/trf_schema.py` (a Python set;
listed here in source order — all uses are order-insensitive). -/
def REQUIRED_FIELDS : List String :=
  [ "patientID",
    "patientInformation.patientName.firstName",
    "patientInformation.patientName.lastName",
    "patientInformation.gender",
    "patientInformation.dob",
    "patientInformation.patientInformationPhoneNumber",
    "clinicalSummary.primaryDiagnosis" ]

/-- One conditional-requirement rule of `FIELD_RELATIONSHIPS`. -/
structure FieldRelationship where
  ifField : String
  equalsValue : String
  thenRequire : List String

/-- `FIELD_RELATIONSHIPS` of `app/schemas/trf_schema.py`. -/
def FIELD_RELATIONSHIPS : List FieldRelationship :=
  [ ⟨"clinicalSummary.Immunohistochemistry.hasPatientFailedPriorTreatment", "Yes",
      ["clinicalSummary.Immunohistochemistry.pastTherapy"]⟩,
    ⟨"FamilyHistory.familyHistoryOfAnyCancer", "Yes",
      ["FamilyHistory.familyMember"]⟩ ]

/-- `value is None or value == ""` — the required-field missing test
inside `validate_trf_data` (note: an empty list is *not* equal to `""`
in Python, so it counts as present there). -/
def isNoneOrEmptyStr : JVal → Bool
  | .null => true
  | .str s => s.isEmpty
  | _ => false

/-- Python `==` against a string constant (used for
`field_value == relationship["equals_value"]`). -/
def pyEqStr (v : JVal) (s : String) : Bool :=
  match v with
  | .str t => t == s
  | _ => false

/-- The conditional-violation message of `validate_trf_data`
(apostrophes written as `\x27`). -/
def relationshipErrorMsg (requiredField ifField equalsValue : String) : String :=
  "Field \x27" ++ requiredField ++ "\x27 is required when \x27" ++ ifField ++
    "\x27 equals \x27" ++ equalsValue ++ "\x27"

/-- `validate_trf_data(trf_data)` (`app/schemas/trf_schema.py:207-235`):
returns `(is_valid, missing_required_fields, validation_errors)`. -/
def validateTrfData (d : JVal) : Bool × List String × List String :=
  let missing := REQUIRED_FIELDS.filter fun f => isNoneOrEmptyStr (getFieldValue d f)
  let errors := FIELD_RELATIONSHIPS.foldl
    (fun acc rel =>
      if pyEqStr (getFieldValue d rel.ifField) rel.equalsValue then
        acc ++ ((rel.thenRequire.filter fun rf => getFieldValue d rf = .null).map
          fun rf => relationshipErrorMsg rf rel.ifField rel.equalsValue)
      else acc) []
  (missing.isEmpty && errors.isEmpty, missing, errors)

/-- `value in (None, "", [])` — the missing test used by
`SchemaValidator.get_missing_required_fields`. -/
def isNoneEmptyStrOrEmptyList : JVal → Bool
  | .null => true
  | .str s => s.isEmpty
  | .arr xs => xs.isEmpty
  | _ => false

/-- `SchemaValidator.get_missing_required_fields(trf_data)`
(`app/core/schema_validator.py:45-62`). -/
def getMissingRequiredFields (d : JVal) : List String :=
  REQUIRED_FIELDS.filter fun f => isNoneEmptyStrOrEmptyList (getFieldValue d f)

/-! ## Extraction merge (`AIFieldExtractor._merge_extracted_data`,
`app/core/field_extractor.py:252-315`).  The Python method mutates
`target` in place; here each step returns the updated target.  The
`except (IndexError, TypeError)` handler around each array item is
modelled by catching exactly those error kinds. -/

/-- Placeholder used when growing a target array:
`{} if value and isinstance(value[0], dict) else None`, where `value`
is the whole source array. -/
def mergePlaceholder (source : List JVal) : JVal :=
  match source with
  | (.obj _) :: _ => .obj []
  | _ => .null

/-- Placeholder appended by the repair branch:
`{} if isinstance(item, dict) else None`. -/
def repairPlaceholder (item : JVal) : JVal :=
  match item with
  | .obj _ => .obj []
  | _ => .null

/-- `while len(target[key]) < len(value): target[key].append(...)`. -/
def growMerge (base source : List JVal) : List JVal :=
  if base.length < source.length then
    base ++ List.replicate (source.length - base.length) (mergePlaceholder source)
  else base

/-- The two error kinds caught by the merge's `except` clause. -/
def mergeCaught : PyErr → Bool
  | .indexError => true
  | .typeError => true
  | _ => false

/-- `target[key]` when it is a dict, else the fresh `{}` that the merge
re-initializes the slot with. -/
def subObjAt (target : Obj) (k : String) : Obj :=
  match objLookup k target with
  | some (.obj s) => s
  | _ => []

/-- `target[key]` when it is a list, else the fresh `[]` that the merge
re-initializes the slot with. -/
def subArrAt (target : Obj) (k : String) : List JVal :=
  match objLookup k target with
  | some (.arr l) => l
  | _ => []

/-- `if not isinstance(target[key][i], dict): target[key][i] = {}`. -/
def coerceSlotObj (tgt : List JVal) (i : Nat) (cur : JVal) : List JVal :=
  match cur with
  | .obj _ => tgt
  | _ => tgt.set i (.obj [])

/-- Fields of the dict sitting at slot `i` (defined after coercion). -/
def slotObjAt (tgt : List JVal) (i : Nat) : Obj :=
  match tgt.getD i .null with
  | .obj s => s
  | _ => []

mutual

/-- `_merge_extracted_data(target, source)`: fold the source fields in
order into the target. -/
def mergeObj (target : Obj) : Obj → Except PyErr Obj
  | [] => .ok target
  | (k, v) :: rest =>
      match mergeField target k v with
      | .ok t1 => mergeObj t1 rest
      | .error e => .error e
termination_by s => (sizeOf s, 5)

/-- One `key, value` pair of the source: a dict value coerces the slot
to a dict and merges recursively; a list value coerces the slot to a
list, grows it with placeholders and merges itemwise; a scalar is
assigned directly. -/
def mergeField (target : Obj) (k : String) : JVal → Except PyErr Obj
  | .obj o =>
      match mergeObj (subObjAt target k) o with
      | .ok s2 => .ok (objSet k (.obj s2) target)
      | .error e => .error e
  | .arr xs =>
      match mergeList (growMerge (subArrAt target k) xs) xs 0 with
      | .ok l2 => .ok (objSet k (.arr l2) target)
      | .error e => .error e
  | w => .ok (objSet k w target)
termination_by v => (sizeOf v, 4)

/-- The `for i, item in enumerate(value)` loop over source array items. -/
def mergeList (tgt : List JVal) (items : List JVal) (i : Nat) : Except PyErr (List JVal) :=
  match items with
  | [] => .ok tgt
  | item :: rest =>
      match mergeItem tgt item i with
      | .ok t1 => mergeList t1 rest (i + 1)
      | .error e => .error e
termination_by (sizeOf items, 3)

/-- One array item with the surrounding `try/except`: a caught
`IndexError`/`TypeError` triggers the local repair-and-retry. -/
def mergeItem (tgt : List JVal) (item : JVal) (i : Nat) : Except PyErr (List JVal) :=
  match mergeItemTry tgt item i with
  | .ok t => .ok t
  | .error e => if mergeCaught e then mergeRepair tgt item i else .error e
termination_by (sizeOf item, 2)

/-- The `try` block for one array item: a dict item coerces the slot to
a dict and merges recursively; any other item is assigned directly
(`target[key][i]` raising `IndexError` when `i` is out of range). -/
def mergeItemTry (tgt : List JVal) (item : JVal) (i : Nat) : Except PyErr (List JVal) :=
  match item with
  | .obj o =>
      match pyIdx tgt i with
      | .error e => .error e
      | .ok cur =>
          match mergeObj (slotObjAt (coerceSlotObj tgt i cur) i) o with
          | .ok s2 => .ok ((coerceSlotObj tgt i cur).set i (.obj s2))
          | .error e => .error e
  | w =>
      match pyIdx tgt i with
      | .error e => .error e
      | .ok _ => .ok (tgt.set i w)
termination_by (sizeOf item, 0)

/-- The `except` handler body: append one placeholder if the index is
past the end, coerce the slot for dict items, then retry the single
failed assignment once, letting any error of the retry escape. -/
def mergeRepair (tgt : List JVal) (item : JVal) (i : Nat) : Except PyErr (List JVal) :=
  mergeItemTry (if tgt.length ≤ i then tgt ++ [repairPlaceholder item] else tgt) item i
termination_by (sizeOf item, 1)

end

/-! ## Conflict detectors (`app/utils/validation_utils.py`).  The
`templates` dict reaches these functions as an argument; the call
`templates["field_conflict"].format(field_path=…, ocr_value=…,
expected_value=…, reason=…)` is modelled as an opaque formatter
argument `fmt` taking those four values. -/

/-- `v.get(k, dflt)`: `AttributeError` unless `v` is a dict. -/
def pyGetDefault (v : JVal) (k : String) (dflt : JVal) : Except PyErr JVal :=
  match v with
  | .obj o => .ok ((objLookup k o).getD dflt)
  | _ => .error .attributeError

/-- `v.get(k)` with `None` default: `AttributeError` unless a dict. -/
def pyDictGet (v : JVal) (k : String) : Except PyErr JVal :=
  match v with
  | .obj o => .ok (objGet k o)
  | _ => .error .attributeError

/-- `normalize(name)` inside `is_name_match`:
`name.strip().lower() if name else ""`; `.strip()` raises
`AttributeError` for truthy non-strings. -/
def normalizeNameVal (v : JVal) : Except PyErr String :=
  if pyTruthy v then
    match v with
    | .str s => .ok (pyLower (pyStrip s))
    | _ => .error .attributeError
  else .ok ""

/-- `is_name_match(extracted_name, existing_name)`
(`app/utils/validation_utils.py:4-15`): case-insensitive, trimmed
comparison of first and last names; `and` short-circuits, so the last
names are only compared when the first names match. -/
def isNameMatch (extracted existing : JVal) : Except PyErr Bool := do
  let e1 ← pyDictGet extracted "firstName"
  let a ← normalizeNameVal e1
  let x1 ← pyDictGet existing "firstName"
  let b ← normalizeNameVal x1
  if a ≠ b then pure false
  else do
    let e2 ← pyDictGet extracted "lastName"
    let c ← normalizeNameVal e2
    let x2 ← pyDictGet existing "lastName"
    let d ← normalizeNameVal x2
    pure (c == d)

/-- `check_name_conflict(extracted_data, existing_data, templates)`
(`app/utils/validation_utils.py:18-37`): empty string when the names
match, otherwise the formatted `field_conflict` template. -/
def checkNameConflict (fmt : String → JVal → JVal → String → String)
    (extracted existing : JVal) : Except PyErr String := do
  let p1 ← pyGetDefault extracted "patientInformation" (.obj [])
  let en ← pyGetDefault p1 "patientName" (.obj [])
  let p2 ← pyGetDefault existing "patientInformation" (.obj [])
  let xn ← pyGetDefault p2 "patientName" (.obj [])
  let m ← isNameMatch en xn
  if m then pure ""
  else pure (fmt "patientInformation.patientName" en xn
    "the extracted name does not match the existing patient record")

/-- `check_hospital_conflict(trf_data, existing_data, templates)`
(`app/utils/validation_utils.py:39-54`): conflict only when both
resolved hospital names are truthy and differ after `.strip().lower()`
(the truthiness tests and the two `.strip()` calls are evaluated in
Python's left-to-right, short-circuiting order). -/
def checkHospitalConflict (fmt : String → JVal → JVal → String → String)
    (trfData existingData : JVal) : Except PyErr String :=
  let ev := getFieldValue trfData "hospital.hospitalName"
  let xv := getFieldValue existingData "hospital.hospitalName"
  if pyTruthy xv then
    if pyTruthy ev then do
      let es ← (match ev with
        | .str s => Except.ok (pyLower (pyStrip s))
        | _ => Except.error PyErr.attributeError)
      let xs ← (match xv with
        | .str s => Except.ok (pyLower (pyStrip s))
        | _ => Except.error PyErr.attributeError)
      if es ≠ xs then
        pure (fmt "hospital.hospitalName" ev xv
          "the hospital name extracted from OCR does not match the trusted existing patient record")
      else pure ""
    else pure ""
  else pure ""

/-- A record carrying only a patient name, as the conflict detector
reads it. -/
def nameRecord (f l : String) : JVal :=
  .obj [("patientInformation", .obj [("patientName",
    .obj [("firstName", .str f), ("lastName", .str l)])])]

/-! ## Orchestrator failure paths
(`DocumentProcessor.process_document`,
`app/core/document_processor.py:87-262`).  The persistence boundary is
abstracted to effect counters (status writes on the document, OCR-result
inserts, TRF-data inserts) and the OCR/LLM boundaries to their outcomes:
`ocrResult = none` models `ocr_service.process_document` returning a
falsy result, and `extraction` is the outcome of
`field_extractor.extract_fields()` (`Except.error e` models a raised
exception with message `e`).  The success tail (Pydantic validation and
the confidence statistics) is abstracted: the inserted record is
modelled as the normalized extraction record with no patient id
supplied. -/

structure OrchOutcome where
  status : String
  errorMsg : Option String
  ocrCalls : Nat
  ocrInserts : Nat
  trfInserted : Option JVal
  statusWrites : List String
  deriving Repr

/-- `DocumentProcessor.process_document` control flow for a document in
state `docStatus`: the idempotency guard, the OCR step (one call, no
retry; falsy result fails the document), and the extraction step (an
exception fails the document before any TRF-data insert). -/
def processDocument (docStatus : String) (forceReprocess : Bool)
    (ocrResult : Option JVal) (extraction : Except String JVal) : OrchOutcome :=
  if docStatus = "processed" ∧ forceReprocess = false then
    ⟨"completed", none, 0, 0, none, []⟩
  else
    match ocrResult with
    | none =>
        ⟨"failed", some "OCR processing failed to return results",
          1, 0, none, ["processing", "failed"]⟩
    | some _ =>
        match extraction with
        | .error e =>
            ⟨"failed", some ("Field extraction failed: " ++ e),
              1, 1, none, ["processing", "ocr_processed", "failed"]⟩
        | .ok record =>
            ⟨"completed", none, 1, 1, some (normalizeArrayFields record),
              ["processing", "ocr_processed", "processed"]⟩

/-! ## Shared lemmas -/

/-- Scalar (non-container) values of the embedding. -/
def isScalar : JVal → Bool
  | .null => true
  | .str _ => true
  | .num _ => true
  | .bool _ => true
  | _ => false

/-- Mapping test. -/
def isObjV : JVal → Bool
  | .obj _ => true
  | _ => false

/-- Sequence test. -/
def isArrV : JVal → Bool
  | .arr _ => true
  | _ => false

theorem objLookup_objSet_self (k : String) (v : JVal) (o : Obj) :
    objLookup k (objSet k v o) = some v := by
  induction o with
  | nil => simp [objSet, objLookup]
  | cons p rest ih =>
      obtain ⟨k1, v1⟩ := p
      by_cases h : k1 = k
      · simp [objSet, objLookup, h]
      · simp [objSet, objLookup, h, ih]

theorem objLookup_objSet_ne (k k1 : String) (v : JVal) (o : Obj) (h : k1 ≠ k) :
    objLookup k (objSet k1 v o) = objLookup k o := by
  induction o with
  | nil => simp [objSet, objLookup, h]
  | cons p rest ih =>
      obtain ⟨k2, v2⟩ := p
      by_cases h2 : k2 = k1
      · subst h2
        simp [objSet, objLookup, h]
      · simp only [objSet, if_neg h2]
        by_cases h3 : k2 = k
        · simp [objLookup, h3]
        · simp [objLookup, h3, ih]

theorem foldl_getStep_null (l : List String) :
    l.foldl getStep .null = .null := by
  induction l with
  | nil => rfl
  | cons x xs ih => simpa [getStep] using ih

theorem splitChar_ne_nil (c : Char) (l : List Char) : splitChar c l ≠ [] := by
  induction l with
  | nil => simp [splitChar]
  | cons x xs ih =>
      simp only [splitChar]
      by_cases h : x = c
      · simp [h]
      · simp only [if_neg h]
        cases hr : splitChar c xs with
        | nil => simp
        | cons a b => simp

theorem splitPath_ne_nil (p : String) : splitPath p ≠ [] := by
  simp only [splitPath, pySplit]
  intro h
  exact splitChar_ne_nil '.' p.data (List.map_eq_nil_iff.mp h)

/-! ## C10: writing into an empty record -/

/-- **C10**: for every non-empty path and value, `set_field_value` with
the empty mapping as root returns it unchanged — the falsy empty dict is
rejected by the very guard (`not data or not isinstance(data, dict)`)
that rejects non-mapping roots — so no field is ever written into an
empty record. -/
theorem set_into_empty_record_is_noop (p : String) (v : JVal) (h : p ≠ "") :
    setFieldValue (.obj []) p v = .ok (.obj [])
    ∧ (∀ d : JVal, isObjV d = false → setFieldValue d p v = .ok d)
    ∧ (∀ q : String, getFieldValue (.obj []) q = .null) := by
  refine ⟨by simp [setFieldValue], ?_, ?_⟩
  · intro d hd
    cases d <;> simp_all [setFieldValue, isObjV]
  · intro q
    by_cases hq : q = ""
    · simp [getFieldValue, hq]
    · simp only [getFieldValue, if_neg hq]
      cases hsp : splitPath q with
      | nil => exact absurd hsp (splitPath_ne_nil q)
      | cons a rest =>
          have : getStep (.obj []) a = .null := rfl
          simp [this, foldl_getStep_null]

/-- Witness for C10 at the concrete path `"a.b"`. -/
theorem set_into_empty_record_is_noop_witness :
    setFieldValue (.obj []) "a.b" (.num 1) = .ok (.obj []) :=
  (set_into_empty_record_is_noop "a.b" (.num 1) (by decide)).1

/-! ### Lemmas about the normalization pipeline -/

theorem lookup_normTop_ne (o : Obj) (key k : String) (h : key ≠ k) :
    objLookup k (normTop o key) = objLookup k o := by
  unfold normTop
  split
  · split
    · exact objLookup_objSet_ne k key _ o h
    · rfl
  · rfl

theorem lookup_normTop_self (o : Obj) (key : String) :
    objLookup key (normTop o key) =
      (objLookup key o).map
        fun v => if isNumericDict v || isStrV v then normalizeValue v else v := by
  unfold normTop
  split
  · next v hl =>
      rw [hl]
      split
      · next hc => simp only [Option.map_some']; rw [if_pos hc, objLookup_objSet_self]
      · next hc => simp only [Option.map_some']; rw [if_neg hc, hl]
  · next hl => rw [hl]; rfl

theorem lookup_normNested_ne (o : Obj) (k1 k2 k : String) (h : k1 ≠ k) :
    objLookup k (normNested o k1 k2) = objLookup k o := by
  unfold normNested
  split
  · unfold normNestedInner
    split
    · split
      · exact objLookup_objSet_ne k k1 _ o h
      · rfl
    · rfl
  · rfl

theorem normNested_cond_false (o : Obj) (k1 k2 : String) (o1 : Obj) (v : JVal)
    (h1 : objLookup k1 o = some (.obj o1)) (h2 : objLookup k2 o1 = some v)
    (hc : (isNumericDict v || isStrV v) = false) : normNested o k1 k2 = o := by
  unfold normNested
  rw [h1]
  show normNestedInner o k1 k2 o1 = o
  simp only [normNestedInner, h2, hc]
  simp

theorem lookup_normNested_conv (o : Obj) (k1 k2 : String) (o1 : Obj) (v : JVal)
    (h1 : objLookup k1 o = some (.obj o1)) (h2 : objLookup k2 o1 = some v)
    (hc : (isNumericDict v || isStrV v) = true) :
    objLookup k1 (normNested o k1 k2) = some (.obj (objSet k2 (normalizeValue v) o1)) := by
  unfold normNested
  rw [h1]
  show objLookup k1 (normNestedInner o k1 k2 o1) = _
  simp only [normNestedInner, h2, hc]
  simp [objLookup_objSet_self]

theorem lookup_safetyNet_ne (o : Obj) (k : String) (h : k ≠ "Sample") :
    objLookup k (sampleSafetyNet o) = objLookup k o := by
  unfold sampleSafetyNet
  split
  · exact objLookup_objSet_ne k "Sample" _ o (fun he => h he.symm)
  · rfl

theorem lookup_safetyNet_self (o : Obj) :
    objLookup "Sample" (sampleSafetyNet o) =
      (objLookup "Sample" o).map
        fun v => match v with | .obj s => .arr [.obj s] | w => w := by
  unfold sampleSafetyNet
  split
  · next s hl => rw [hl, objLookup_objSet_self]; rfl
  · next hne =>
      cases hl : objLookup "Sample" o with
      | none => rfl
      | some v =>
          cases v with
          | obj s => exact absurd hl (hne s)
          | null => rfl
          | str s => rfl
          | num n => rfl
          | bool b => rfl
          | arr xs => rfl

/-! ## C1: path round-trip -/

/-- `set_field_value` followed by `get_field_value` along a path of
plain (bracket-free) segments recovers the written value, and `setGo`
cannot raise on such a path. -/
theorem setGo_plain (parts : List String) :
    ∀ (cur : Obj) (v : JVal), parts ≠ [] →
      (∀ part ∈ parts, isBracketPart part = false) →
      ∃ r, setGo cur parts v = .ok r ∧ parts.foldl getStep (.obj r) = v := by
  induction parts with
  | nil => intro cur v h; exact absurd rfl h
  | cons part rest ih =>
      intro cur v _ hb
      have hpart : isBracketPart part = false := hb part (by simp)
      cases rest with
      | nil =>
          refine ⟨objSet part v cur, ?_, ?_⟩
          · simp [setGo, hpart]
          · simp [getStep, objGet, objLookup_objSet_self]
      | cons b bs =>
          have hbrest : ∀ q ∈ b :: bs, isBracketPart q = false := by
            intro q hq; exact hb q (by simp [hq])
          obtain ⟨r2, hr2, hfold⟩ :=
            ih (match objLookup part cur with
                | some (.obj o) => o
                | _ => ([] : Obj)) v (by simp) hbrest
          refine ⟨objSet part (.obj r2) cur, ?_, ?_⟩
          · simp only [setGo, hpart, Bool.false_eq_true, if_false, hr2]
          · have hstep :
                getStep (.obj (objSet part (.obj r2) cur)) part = .obj r2 := by
              simp [getStep, objGet, objLookup_objSet_self]
            simpa [List.foldl, hstep] using hfold

/-- **C1 (amended)**: the round trip
`get_field_value(set_field_value(record, p, v), p) == v` holds for every
*non-empty* mapping root and every dot-separated path none of whose
segments uses the bracket convention; an empty mapping root or a
bracket segment breaks it. -/
theorem path_roundtrip_plain_segments (o : Obj) (p : String) (v : JVal)
    (ho : o ≠ []) (hp : p ≠ "")
    (hb : ∀ part ∈ splitPath p, isBracketPart part = false) :
    ∃ r, setFieldValue (.obj o) p v = .ok (.obj r)
      ∧ getFieldValue (.obj r) p = v := by
  obtain ⟨r, hr, hfold⟩ := setGo_plain (splitPath p) o v (splitPath_ne_nil p) hb
  refine ⟨r, ?_, ?_⟩
  · simp only [setFieldValue]
    rw [if_neg (by simp [hp, List.isEmpty_iff, ho]), hr]
  · simp only [getFieldValue, if_neg hp]
    exact hfold

/-- Witness for C1 (amended) at the path `"a.0.b"` on a one-field
record, writing the string `"v"`. -/
theorem path_roundtrip_plain_segments_witness :
    ∃ r, setFieldValue (.obj [("x", .num 1)]) "a.0.b" (.str "v") = .ok (.obj r)
      ∧ getFieldValue (.obj r) "a.0.b" = .str "v" :=
  path_roundtrip_plain_segments [("x", .num 1)] "a.0.b" (.str "v")
    (by decide) (by decide) (by decide)

/-- **C1 counterexample**: the claim quantifies over bracket paths too,
but `get_field_value` does not understand the bracket convention that
`set_field_value` writes with: after `set_field_value(record, "a[0]",
"v")` the read back along the same path is `None`, not `"v"`.  (The
empty mapping root is a second counterexample, per C10.) -/
theorem path_roundtrip_bracket_fails :
    setFieldValue (.obj [("x", .num 1)]) "a[0]" (.str "v")
      = .ok (.obj [("x", .num 1), ("a", .arr [.str "v"])])
    ∧ getFieldValue (.obj [("x", .num 1), ("a", .arr [.str "v"])]) "a[0]" = .null
    ∧ JVal.null ≠ JVal.str "v" :=
  ⟨rfl, rfl, by decide⟩

/-! ## C2: get_field_value segment semantics -/

/-- **C2**: `get_field_value` is a total function into values (absence
is `None`, never an exception — its embedding needs no error monad),
and at each segment: a numeric segment against a sequence indexes it
(absent when the index is past the end), a numeric segment against a
mapping is a literal key lookup, and any segment against a scalar
resolves to absent.  The whole traversal is the fold of the segment
step over the dotted path. -/
theorem get_field_value_segment_semantics :
    (∀ (xs : List JVal) (part : String), pyIsDigit part = true →
        xs.length ≤ digitsToNat part.data → getStep (.arr xs) part = .null)
    ∧ (∀ (xs : List JVal) (part : String) (i : Nat) (h : i < xs.length),
        pyIsDigit part = true → digitsToNat part.data = i →
        getStep (.arr xs) part = xs.get ⟨i, h⟩)
    ∧ (∀ (o : Obj) (part : String), pyIsDigit part = true →
        getStep (.obj o) part = (objLookup part o).getD .null)
    ∧ (∀ (v : JVal) (part : String), isScalar v = true → getStep v part = .null)
    ∧ (∀ (data : JVal) (p : String), p ≠ "" →
        getFieldValue data p = (splitPath p).foldl getStep data) := by
  refine ⟨?_, ?_, ?_, ?_, ?_⟩
  · intro xs part hd hlen
    simp [getStep, hd, List.getD_eq_getElem?_getD, List.getElem?_eq_none hlen]
  · intro xs part i h hd hi
    simp [getStep, hd, hi, List.getD_eq_getElem?_getD, List.getElem?_eq_getElem h]
  · intro o part _
    rfl
  · intro v part hs
    cases v <;> simp_all [isScalar, getStep]
  · intro data p hp
    simp [getFieldValue, hp]

/-- Witness for C2: the segment laws at concrete inputs. -/
theorem get_field_value_segment_semantics_witness :
    getStep (.arr [.num 7]) "3" = .null
    ∧ getStep (.arr [.num 7, .num 9]) "1" = .num 9
    ∧ getStep (.obj [("1", .str "k")]) "1" = (objLookup "1" [("1", .str "k")]).getD .null
    ∧ getStep (.str "scalar") "0" = .null
    ∧ getFieldValue (.obj [("a", .num 2)]) "a" = (splitPath "a").foldl getStep (.obj [("a", .num 2)]) := by
  refine ⟨?_, ?_, ?_, ?_, ?_⟩
  · exact get_field_value_segment_semantics.1 [.num 7] "3" (by decide) (by decide)
  · exact get_field_value_segment_semantics.2.1 [.num 7, .num 9] "1" 1 (by decide)
      (by decide) (by decide)
  · exact get_field_value_segment_semantics.2.2.1 [("1", .str "k")] "1" (by decide)
  · exact get_field_value_segment_semantics.2.2.2.1 (.str "scalar") "0" (by decide)
  · exact get_field_value_segment_semantics.2.2.2.2 (.obj [("a", .num 2)]) "a" (by decide)

/-! ## C3: shape of declared array fields after normalization -/

/-- The safety-net repair never leaves a mapping behind. -/
theorem safetyNetFun_not_obj (w : JVal) :
    isObjV (match w with | .obj s => JVal.arr [.obj s] | w => w) = false := by
  cases w <;> rfl

theorem normalizeValue_numeric (m : Obj) (h : isNumericDict (.obj m) = true) :
    normalizeValue (.obj m) = .arr ((sortByNumKey m).map Prod.snd) := by
  unfold normalizeValue
  rw [if_pos h]

theorem normalizeValue_str (s : String) :
    normalizeValue (.str s) =
      if pyStrip s = "" then .arr [] else .arr [.str (pyStrip s)] := by
  unfold normalizeValue
  rw [if_neg (by simp [isNumericDict])]

/-- **C3 (amended)**: after `normalize_array_fields`, the `Sample` field
never resolves to a mapping, and resolves to a sequence whenever its
previous value was a string, a mapping, or a sequence; but non-string
scalars (numbers, booleans) pass through unmodified, and a
non-numeric-keyed mapping at `FamilyHistory.familyMember` passes
through unmodified, so the "sequence or absent" guarantee does not hold
for every input record. -/
theorem normalize_array_fields_shape (o : Obj) :
    (isObjV (objGet "Sample" (normFields o)) = false)
    ∧ (∀ s, objLookup "Sample" o = some (.str s) →
        ∃ xs, objLookup "Sample" (normFields o) = some (.arr xs))
    ∧ (∀ m, objLookup "Sample" o = some (.obj m) →
        ∃ xs, objLookup "Sample" (normFields o) = some (.arr xs))
    ∧ (∀ l, objLookup "Sample" o = some (.arr l) →
        objLookup "Sample" (normFields o) = some (.arr l))
    ∧ (∀ v, objLookup "Sample" o = some v → isScalar v = true → isStrV v = false →
        objLookup "Sample" (normFields o) = some v)
    ∧ (∀ f m, objLookup "FamilyHistory" o = some (.obj f) →
        objLookup "familyMember" f = some (.obj m) → isNumericDict (.obj m) = false →
        getFieldValue (normalizeArrayFields (.obj o)) "FamilyHistory.familyMember"
          = .obj m) := by
  have hFHS : ("FamilyHistory" : String) ≠ "Sample" := by decide
  have hSFH : ("Sample" : String) ≠ "FamilyHistory" := by decide
  have hnet := lookup_safetyNet_self (normNested (normTop o "Sample") "FamilyHistory" "familyMember")
  have hnn := lookup_normNested_ne (normTop o "Sample") "FamilyHistory" "familyMember" "Sample" hFHS
  have hnt := lookup_normTop_self o "Sample"
  have hchain : objLookup "Sample" (normFields o) =
      ((objLookup "Sample" o).map
        fun v => if isNumericDict v || isStrV v then normalizeValue v else v).map
        fun v => match v with | .obj s => JVal.arr [.obj s] | w => w := by
    unfold normFields
    rw [hnet, hnn, hnt]
  refine ⟨?_, ?_, ?_, ?_, ?_, ?_⟩
  · unfold objGet
    rw [hchain]
    cases hl : objLookup "Sample" o with
    | none => rfl
    | some v => simp only [Option.map_some', Option.getD_some]; exact safetyNetFun_not_obj _
  · intro s hs
    rw [hchain, hs]
    simp only [Option.map_some']
    rw [if_pos (by simp [isStrV])]
    rw [normalizeValue_str s]
    by_cases h0 : pyStrip s = ""
    · exact ⟨[], by rw [if_pos h0]⟩
    · exact ⟨[.str (pyStrip s)], by rw [if_neg h0]⟩
  · intro m hm
    rw [hchain, hm]
    simp only [Option.map_some']
    by_cases hnum : isNumericDict (.obj m) = true
    · refine ⟨(sortByNumKey m).map Prod.snd, ?_⟩
      rw [if_pos (by simp [hnum]), normalizeValue_numeric m hnum]
    · refine ⟨[.obj m], ?_⟩
      rw [if_neg (by simp [hnum, isStrV])]
  · intro l hl
    rw [hchain, hl]
    simp only [Option.map_some']
    rw [if_neg (by simp [isNumericDict, isStrV])]
  · intro v hv hsc hstr
    rw [hchain, hv]
    simp only [Option.map_some']
    cases v with
    | null => rfl
    | num n => rfl
    | bool b => rfl
    | str s => simp [isStrV] at hstr
    | arr xs => simp [isScalar] at hsc
    | obj o2 => simp [isScalar] at hsc
  · intro f m hf hm hnum
    have hcond : (isNumericDict (.obj m) || isStrV (.obj m)) = false := by
      simp [hnum, isStrV]
    have hf1 : objLookup "FamilyHistory" (normTop o "Sample") = some (.obj f) := by
      rw [lookup_normTop_ne o "Sample" "FamilyHistory" hSFH, hf]
    have hnnid : normNested (normTop o "Sample") "FamilyHistory" "familyMember"
        = normTop o "Sample" :=
      normNested_cond_false _ _ _ f (.obj m) hf1 hm hcond
    have hfinal : objLookup "FamilyHistory" (normFields o) = some (.obj f) := by
      unfold normFields
      rw [hnnid, lookup_safetyNet_ne _ "FamilyHistory" hFHS, hf1]
    show getFieldValue (.obj (normFields o)) "FamilyHistory.familyMember" = .obj m
    have hsplit : splitPath "FamilyHistory.familyMember"
        = ["FamilyHistory", "familyMember"] := rfl
    rw [getFieldValue, if_neg (by decide), hsplit]
    show getStep (getStep (.obj (normFields o)) "FamilyHistory") "familyMember" = .obj m
    have h1 : getStep (.obj (normFields o)) "FamilyHistory" = .obj f := by
      simp [getStep, objGet, hfinal]
    rw [h1]
    simp [getStep, objGet, hm]

/-- Witness for C3 (amended) on a record exercising each conjunct. -/
theorem normalize_array_fields_shape_witness :
    (∃ xs, objLookup "Sample" (normFields [("Sample", .str " Blood ")]) = some (.arr xs))
    ∧ (∃ xs, objLookup "Sample" (normFields [("Sample", .obj [("k", .num 1)])]) = some (.arr xs))
    ∧ objLookup "Sample" (normFields [("Sample", .arr [.num 1])]) = some (.arr [.num 1])
    ∧ objLookup "Sample" (normFields [("Sample", .bool true)]) = some (.bool true)
    ∧ getFieldValue (normalizeArrayFields (.obj
        [("FamilyHistory", .obj [("familyMember", .obj [("name", .str "Bob")])])]))
        "FamilyHistory.familyMember" = .obj [("name", .str "Bob")] :=
  ⟨(normalize_array_fields_shape [("Sample", .str " Blood ")]).2.1 " Blood " rfl,
   (normalize_array_fields_shape [("Sample", .obj [("k", .num 1)])]).2.2.1 [("k", .num 1)] rfl,
   (normalize_array_fields_shape [("Sample", .arr [.num 1])]).2.2.2.1 [.num 1] rfl,
   (normalize_array_fields_shape [("Sample", .bool true)]).2.2.2.2.1 (.bool true) rfl rfl rfl,
   (normalize_array_fields_shape
      [("FamilyHistory", .obj [("familyMember", .obj [("name", .str "Bob")])])]).2.2.2.2.2
      [("familyMember", .obj [("name", .str "Bob")])] [("name", .str "Bob")] rfl rfl (by decide)⟩

/-- **C3 counterexample**: a number at the declared array field `Sample`
survives normalization as a bare scalar — neither a sequence nor
absent — refuting the claimed guarantee. -/
theorem normalize_array_fields_scalar_survives :
    normalizeArrayFields (.obj [("Sample", .num 5)]) = .obj [("Sample", .num 5)]
    ∧ getFieldValue (normalizeArrayFields (.obj [("Sample", .num 5)])) "Sample" = .num 5
    ∧ isArrV (.num 5) = false ∧ JVal.num 5 ≠ .null :=
  ⟨rfl, rfl, rfl, by decide⟩

/-! ## C9: numeric-keyed-object and scalar-to-array repair -/

/-- Key order used by the numeric sort: compare `int(key)`. -/
def numKeyLE (p q : String × JVal) : Prop :=
  digitsToNat p.1.data ≤ digitsToNat q.1.data

theorem insertByNumKey_perm (x : String × JVal) (l : Obj) :
    List.Perm (insertByNumKey x l) (x :: l) := by
  induction l with
  | nil => exact List.Perm.refl _
  | cons q rest ih =>
      unfold insertByNumKey
      split
      · exact ((ih.cons q).trans (List.Perm.swap x q rest))
      · exact List.Perm.refl _

theorem sortByNumKey_perm (l : Obj) : List.Perm (sortByNumKey l) l := by
  induction l with
  | nil => exact List.Perm.refl _
  | cons x xs ih =>
      have : sortByNumKey (x :: xs) = insertByNumKey x (sortByNumKey xs) := rfl
      rw [this]
      exact (insertByNumKey_perm x (sortByNumKey xs)).trans (ih.cons x)

theorem mem_insertByNumKey (x y : String × JVal) (l : Obj) :
    y ∈ insertByNumKey x l ↔ y = x ∨ y ∈ l := by
  rw [(insertByNumKey_perm x l).mem_iff]
  simp

theorem pairwise_insertByNumKey (x : String × JVal) (l : Obj)
    (h : l.Pairwise numKeyLE) : (insertByNumKey x l).Pairwise numKeyLE := by
  induction l with
  | nil => simp [insertByNumKey]
  | cons q rest ih =>
      rw [List.pairwise_cons] at h
      obtain ⟨hq, hrest⟩ := h
      unfold insertByNumKey
      split
      · next hlt =>
          rw [List.pairwise_cons]
          refine ⟨?_, ih hrest⟩
          intro r hr
          rcases (mem_insertByNumKey x r rest).mp hr with he | hmem
          · subst he; exact Nat.le_of_lt hlt
          · exact hq r hmem
      · next hge =>
          rw [List.pairwise_cons]
          refine ⟨?_, List.pairwise_cons.mpr ⟨hq, hrest⟩⟩
          intro r hr
          have hxq : numKeyLE x q := Nat.le_of_not_lt hge
          rcases List.mem_cons.mp hr with he | hmem
          · subst he; exact hxq
          · exact Nat.le_trans hxq (hq r hmem)

theorem sortByNumKey_pairwise (l : Obj) : (sortByNumKey l).Pairwise numKeyLE := by
  induction l with
  | nil => simp [sortByNumKey]
  | cons x xs ih => exact pairwise_insertByNumKey x (sortByNumKey xs) ih

/-- **C9**: at each declared array field, `normalize_array_fields`
converts a numeric-keyed mapping into the sequence of its values taken
in ascending numeric-key order (the output keys are a permutation of
the input sorted by `int(key)`), and converts a string into the
one-element sequence of the trimmed string — or the empty sequence when
the trimmed string is empty; the spec's `{"1": Tissue, "0": Blood}`
example comes out as `[Blood, Tissue]`. -/
theorem normalize_array_repair_rules :
    (∀ (o m : Obj), objLookup "Sample" o = some (.obj m) → isNumericDict (.obj m) = true →
        objLookup "Sample" (normFields o) = some (.arr ((sortByNumKey m).map Prod.snd))
        ∧ List.Perm (sortByNumKey m) m
        ∧ (sortByNumKey m).Pairwise numKeyLE)
    ∧ (∀ (o : Obj) (s : String), objLookup "Sample" o = some (.str s) →
        objLookup "Sample" (normFields o) =
          some (if pyStrip s = "" then .arr [] else .arr [.str (pyStrip s)]))
    ∧ (∀ (o f m : Obj), objLookup "FamilyHistory" o = some (.obj f) →
        objLookup "familyMember" f = some (.obj m) → isNumericDict (.obj m) = true →
        getFieldValue (normalizeArrayFields (.obj o)) "FamilyHistory.familyMember"
          = .arr ((sortByNumKey m).map Prod.snd))
    ∧ (∀ (o f : Obj) (s : String), objLookup "FamilyHistory" o = some (.obj f) →
        objLookup "familyMember" f = some (.str s) →
        getFieldValue (normalizeArrayFields (.obj o)) "FamilyHistory.familyMember"
          = (if pyStrip s = "" then .arr [] else .arr [.str (pyStrip s)]))
    ∧ normalizeArrayFields (.obj [("Sample", .obj [
        ("1", .obj [("sampleType", .str "Tissue")]),
        ("0", .obj [("sampleType", .str "Blood")])])])
      = .obj [("Sample", .arr [.obj [("sampleType", .str "Blood")],
                               .obj [("sampleType", .str "Tissue")]])] := by
  have hFHS : ("FamilyHistory" : String) ≠ "Sample" := by decide
  have hSFH : ("Sample" : String) ≠ "FamilyHistory" := by decide
  refine ⟨?_, ?_, ?_, ?_, rfl⟩
  · intro o m hm hnum
    refine ⟨?_, sortByNumKey_perm m, sortByNumKey_pairwise m⟩
    have hnet := lookup_safetyNet_self
      (normNested (normTop o "Sample") "FamilyHistory" "familyMember")
    have hnn := lookup_normNested_ne (normTop o "Sample") "FamilyHistory" "familyMember"
      "Sample" hFHS
    have hnt := lookup_normTop_self o "Sample"
    unfold normFields
    rw [hnet, hnn, hnt, hm]
    simp only [Option.map_some']
    rw [if_pos (by simp [hnum]), normalizeValue_numeric m hnum]
  · intro o s hs
    have hnet := lookup_safetyNet_self
      (normNested (normTop o "Sample") "FamilyHistory" "familyMember")
    have hnn := lookup_normNested_ne (normTop o "Sample") "FamilyHistory" "familyMember"
      "Sample" hFHS
    have hnt := lookup_normTop_self o "Sample"
    unfold normFields
    rw [hnet, hnn, hnt, hs]
    simp only [Option.map_some']
    rw [if_pos (by simp [isStrV]), normalizeValue_str s]
    by_cases h0 : pyStrip s = ""
    · rw [if_pos h0]
    · rw [if_neg h0]
  · intro o f m hf hm hnum
    have hcond : (isNumericDict (.obj m) || isStrV (.obj m)) = true := by simp [hnum]
    have hf1 : objLookup "FamilyHistory" (normTop o "Sample") = some (.obj f) := by
      rw [lookup_normTop_ne o "Sample" "FamilyHistory" hSFH, hf]
    have hconv := lookup_normNested_conv (normTop o "Sample") "FamilyHistory"
      "familyMember" f (.obj m) hf1 hm hcond
    have hfinal : objLookup "FamilyHistory" (normFields o)
        = some (.obj (objSet "familyMember" (normalizeValue (.obj m)) f)) := by
      unfold normFields
      rw [lookup_safetyNet_ne _ "FamilyHistory" hFHS, hconv]
    show getFieldValue (.obj (normFields o)) "FamilyHistory.familyMember" = _
    rw [getFieldValue, if_neg (by decide),
      show splitPath "FamilyHistory.familyMember" = ["FamilyHistory", "familyMember"] from rfl]
    show getStep (getStep (.obj (normFields o)) "FamilyHistory") "familyMember" = _
    rw [show getStep (.obj (normFields o)) "FamilyHistory"
        = .obj (objSet "familyMember" (normalizeValue (.obj m)) f) from by
      simp [getStep, objGet, hfinal]]
    simp [getStep, objGet, objLookup_objSet_self, normalizeValue_numeric m hnum]
  · intro o f s hf hs
    have hcond : (isNumericDict (.str s) || isStrV (.str s)) = true := by simp [isStrV]
    have hf1 : objLookup "FamilyHistory" (normTop o "Sample") = some (.obj f) := by
      rw [lookup_normTop_ne o "Sample" "FamilyHistory" hSFH, hf]
    have hconv := lookup_normNested_conv (normTop o "Sample") "FamilyHistory"
      "familyMember" f (.str s) hf1 hs hcond
    have hfinal : objLookup "FamilyHistory" (normFields o)
        = some (.obj (objSet "familyMember" (normalizeValue (.str s)) f)) := by
      unfold normFields
      rw [lookup_safetyNet_ne _ "FamilyHistory" hFHS, hconv]
    show getFieldValue (.obj (normFields o)) "FamilyHistory.familyMember" = _
    rw [getFieldValue, if_neg (by decide),
      show splitPath "FamilyHistory.familyMember" = ["FamilyHistory", "familyMember"] from rfl]
    show getStep (getStep (.obj (normFields o)) "FamilyHistory") "familyMember" = _
    rw [show getStep (.obj (normFields o)) "FamilyHistory"
        = .obj (objSet "familyMember" (normalizeValue (.str s)) f) from by
      simp [getStep, objGet, hfinal]]
    simp [getStep, objGet, objLookup_objSet_self, normalizeValue_str s]

/-- Witness for C9: the numeric-keyed repair at a record whose keys
arrive out of order, and the scalar repair on a padded string. -/
theorem normalize_array_repair_rules_witness :
    objLookup "Sample" (normFields [("Sample", .obj [("2", .str "b"), ("0", .str "a")])])
      = some (.arr ((sortByNumKey [("2", .str "b"), ("0", .str "a")]).map Prod.snd))
    ∧ objLookup "Sample" (normFields [("Sample", .str "  ")]) =
        some (if pyStrip "  " = "" then .arr [] else .arr [.str (pyStrip "  ")]) :=
  ⟨(normalize_array_repair_rules.1 [("Sample", .obj [("2", .str "b"), ("0", .str "a")])]
      [("2", .str "b"), ("0", .str "a")] rfl (by decide)).1,
   normalize_array_repair_rules.2.1 [("Sample", .str "  ")] "  " rfl⟩

/-! ## C4 and C5: totality and frame property of the extraction merge -/

theorem growMerge_length (base xs : List JVal) :
    xs.length ≤ (growMerge base xs).length := by
  unfold growMerge
  split
  · next h => simp; omega
  · next h => simp at h ⊢; omega

theorem coerceSlotObj_length (tgt : List JVal) (i : Nat) (cur : JVal) :
    (coerceSlotObj tgt i cur).length = tgt.length := by
  cases cur <;> simp [coerceSlotObj]

mutual

theorem mergeObj_ok : ∀ (s : Obj) (t : Obj), ∃ r, mergeObj t s = Except.ok r
  | [], t => ⟨t, by simp [mergeObj]⟩
  | (k, v) :: rest, t => by
      obtain ⟨t1, ht1⟩ := mergeField_ok v t k
      obtain ⟨r, hr⟩ := mergeObj_ok rest t1
      exact ⟨r, by simp only [mergeObj]; rw [ht1]; exact hr⟩
termination_by s t => sizeOf s

theorem mergeField_ok : ∀ (v : JVal) (t : Obj) (k : String), ∃ r, mergeField t k v = Except.ok r
  | .obj o, t, k => by
      obtain ⟨s2, hs2⟩ := mergeObj_ok o (subObjAt t k)
      exact ⟨objSet k (.obj s2) t, by simp only [mergeField]; rw [hs2]⟩
  | .arr xs, t, k => by
      obtain ⟨l2, hl2, _⟩ := mergeList_ok xs (growMerge (subArrAt t k) xs) 0
        (by simpa using growMerge_length (subArrAt t k) xs)
      exact ⟨objSet k (.arr l2) t, by simp only [mergeField]; rw [hl2]⟩
  | .null, t, k => ⟨objSet k .null t, by simp [mergeField]⟩
  | .str s, t, k => ⟨objSet k (.str s) t, by simp [mergeField]⟩
  | .num n, t, k => ⟨objSet k (.num n) t, by simp [mergeField]⟩
  | .bool b, t, k => ⟨objSet k (.bool b) t, by simp [mergeField]⟩
termination_by v t k => sizeOf v

theorem mergeList_ok : ∀ (items : List JVal) (tgt : List JVal) (i : Nat),
    i + items.length ≤ tgt.length →
    ∃ r, mergeList tgt items i = Except.ok r ∧ r.length = tgt.length
  | [], tgt, i, _ => ⟨tgt, by simp [mergeList], rfl⟩
  | item :: rest, tgt, i, h => by
      have hi : i < tgt.length := by simp at h; omega
      obtain ⟨t1, ht1, hlen⟩ := mergeItemTry_ok item tgt i hi
      have hitem : mergeItem tgt item i = Except.ok t1 := by
        simp only [mergeItem]; rw [ht1]
      obtain ⟨r, hr, hrlen⟩ := mergeList_ok rest t1 (i + 1)
        (by rw [hlen]; simp at h ⊢; omega)
      exact ⟨r, by simp only [mergeList]; rw [hitem]; exact hr, by rw [hrlen, hlen]⟩
termination_by items tgt i => sizeOf items

theorem mergeItemTry_ok : ∀ (item : JVal) (tgt : List JVal) (i : Nat),
    i < tgt.length →
    ∃ r, mergeItemTry tgt item i = Except.ok r ∧ r.length = tgt.length
  | .obj o, tgt, i, h => by
      have hidx : pyIdx tgt i = Except.ok (tgt.get ⟨i, h⟩) := by
        unfold pyIdx; rw [dif_pos h]
      obtain ⟨s2, hs2⟩ :=
        mergeObj_ok o (slotObjAt (coerceSlotObj tgt i (tgt.get ⟨i, h⟩)) i)
      refine ⟨(coerceSlotObj tgt i (tgt.get ⟨i, h⟩)).set i (.obj s2), ?_, ?_⟩
      · simp only [mergeItemTry, hidx, hs2]
      · rw [List.length_set, coerceSlotObj_length]
  | .null, tgt, i, h => by
      have hidx : pyIdx tgt i = Except.ok (tgt.get ⟨i, h⟩) := by
        unfold pyIdx; rw [dif_pos h]
      exact ⟨tgt.set i .null, by simp only [mergeItemTry, hidx], by
        rw [List.length_set]⟩
  | .str s, tgt, i, h => by
      have hidx : pyIdx tgt i = Except.ok (tgt.get ⟨i, h⟩) := by
        unfold pyIdx; rw [dif_pos h]
      exact ⟨tgt.set i (.str s), by simp only [mergeItemTry, hidx], by
        rw [List.length_set]⟩
  | .num n, tgt, i, h => by
      have hidx : pyIdx tgt i = Except.ok (tgt.get ⟨i, h⟩) := by
        unfold pyIdx; rw [dif_pos h]
      exact ⟨tgt.set i (.num n), by simp only [mergeItemTry, hidx], by
        rw [List.length_set]⟩
  | .bool b, tgt, i, h => by
      have hidx : pyIdx tgt i = Except.ok (tgt.get ⟨i, h⟩) := by
        unfold pyIdx; rw [dif_pos h]
      exact ⟨tgt.set i (.bool b), by simp only [mergeItemTry, hidx], by
        rw [List.length_set]⟩
  | .arr xs, tgt, i, h => by
      have hidx : pyIdx tgt i = Except.ok (tgt.get ⟨i, h⟩) := by
        unfold pyIdx; rw [dif_pos h]
      exact ⟨tgt.set i (.arr xs), by simp only [mergeItemTry, hidx], by
        rw [List.length_set]⟩
termination_by item tgt i => sizeOf item

end

/-- **C4**: the extraction merge is total — for every source fragment
and every target mapping, `_merge_extracted_data` completes without an
uncaught exception (every Python indexing step that could raise is
guarded by the placeholder growth, so in particular its local
`except` repair never has to run). -/
theorem merge_extracted_data_total (t s : Obj) : ∃ r, mergeObj t s = Except.ok r :=
  mergeObj_ok s t

/-- `mergeField` only writes the key it is given. -/
theorem mergeField_lookup_ne (t t1 : Obj) (k1 k : String) (v : JVal)
    (hf : mergeField t k1 v = Except.ok t1) (hk : k1 ≠ k) :
    objLookup k t1 = objLookup k t := by
  cases v with
  | obj o =>
      cases hm : mergeObj (subObjAt t k1) o with
      | ok s2 =>
          simp only [mergeField, hm] at hf
          cases hf
          exact objLookup_objSet_ne k k1 _ t hk
      | error e => simp only [mergeField, hm] at hf; cases hf
  | arr xs =>
      cases hm : mergeList (growMerge (subArrAt t k1) xs) xs 0 with
      | ok l2 =>
          simp only [mergeField, hm] at hf
          cases hf
          exact objLookup_objSet_ne k k1 _ t hk
      | error e => simp only [mergeField, hm] at hf; cases hf
  | null =>
      simp only [mergeField] at hf
      cases hf
      exact objLookup_objSet_ne k k1 _ t hk
  | str s =>
      simp only [mergeField] at hf
      cases hf
      exact objLookup_objSet_ne k k1 _ t hk
  | num n =>
      simp only [mergeField] at hf
      cases hf
      exact objLookup_objSet_ne k k1 _ t hk
  | bool b =>
      simp only [mergeField] at hf
      cases hf
      exact objLookup_objSet_ne k k1 _ t hk

theorem mergeObj_frame : ∀ (s t r : Obj) (k : String),
    mergeObj t s = Except.ok r → objLookup k s = none →
    objLookup k r = objLookup k t := by
  intro s
  induction s with
  | nil =>
      intro t r k h _
      simp only [mergeObj] at h
      cases h
      rfl
  | cons p rest ih =>
      obtain ⟨k1, v⟩ := p
      intro t r k h hk
      have hk1 : k1 ≠ k ∧ objLookup k rest = none := by
        by_cases he : k1 = k
        · simp [objLookup, he] at hk
        · simpa [objLookup, he] using And.intro he hk
      cases hf : mergeField t k1 v with
      | ok t1 =>
          simp only [mergeObj, hf] at h
          have := ih t1 r k h hk1.2
          rw [this, mergeField_lookup_ne t t1 k1 k v hf hk1.1]
      | error e => simp only [mergeObj, hf] at h; cases h

/-- **C5**: merge non-destructiveness — merging an empty source leaves
the target unchanged; every key present in the target but absent from
the source keeps its prior value (the merge only adds or overwrites,
never deletes); and the spec's example
`merge({"a": 0, "b": 2}, {"a": 1}) == {"a": 1, "b": 2}` holds. -/
theorem merge_nondestructive :
    (∀ t : Obj, mergeObj t [] = Except.ok t)
    ∧ (∀ (s t r : Obj) (k : String), mergeObj t s = Except.ok r →
        objLookup k s = none → objLookup k r = objLookup k t)
    ∧ mergeObj [("a", .num 0), ("b", .num 2)] [("a", .num 1)]
        = Except.ok [("a", .num 1), ("b", .num 2)] := by
  refine ⟨fun t => by simp [mergeObj], mergeObj_frame, ?_⟩
  simp [mergeObj, mergeField, objSet]

/-- Witness for C5: merging `{"a": 1}` into `{"b": 2}` keeps the value
at the untouched key `"b"`. -/
theorem merge_nondestructive_witness :
    objLookup "b" [("b", JVal.num 2), ("a", JVal.num 1)]
      = objLookup "b" [("b", JVal.num 2)] :=
  merge_nondestructive.2.1 [("a", .num 1)] [("b", .num 2)]
    [("b", .num 2), ("a", .num 1)] "b"
    (by simp [mergeObj, mergeField, objSet, objLookup]) rfl

/-! ## C6: validity versus the missing-field computations -/

/-- **C6 (amended)**: `is_valid` is true iff `validate_trf_data`'s *own*
missing list and conditional-violation list are empty; but the three
presence tests differ: the required-field check inside
`validate_trf_data` counts a value missing iff it is null or the empty
string (an empty sequence counts as present), its conditional check
counts a dependent missing iff it is null, and only
`SchemaValidator.get_missing_required_fields` additionally counts empty
sequences as missing. -/
theorem validate_trf_data_characterization (d : JVal) :
    ((validateTrfData d).1 = true ↔
      (validateTrfData d).2.1 = [] ∧ (validateTrfData d).2.2 = [])
    ∧ (∀ f, f ∈ (validateTrfData d).2.1 ↔
        f ∈ REQUIRED_FIELDS ∧ isNoneOrEmptyStr (getFieldValue d f) = true)
    ∧ (∀ f, f ∈ getMissingRequiredFields d ↔
        f ∈ REQUIRED_FIELDS ∧ isNoneEmptyStrOrEmptyList (getFieldValue d f) = true) := by
  refine ⟨?_, ?_, ?_⟩
  · simp [validateTrfData, List.isEmpty_iff]
  · intro f
    simp [validateTrfData, List.mem_filter]
  · intro f
    simp [getMissingRequiredFields, List.mem_filter]

/-- **C6 counterexample**: on a record whose required fields all hold
empty sequences, `validate_trf_data` reports valid (its own missing test
is `value is None or value == ""`, and `[] == ""` is false in Python),
while `get_missing_required_fields` — the computation realizing the
claim's presence predicate, under which an empty sequence is *not*
present — reports every required field missing.  So `is_valid` is not
equivalent to "nothing is missing" under the claimed single presence
predicate. -/
theorem validate_trf_data_empty_list_counterexample :
    (validateTrfData (.obj [
      ("patientID", .arr []),
      ("patientInformation", .obj [
        ("patientName", .obj [("firstName", .arr []), ("lastName", .arr [])]),
        ("gender", .arr []),
        ("dob", .arr []),
        ("patientInformationPhoneNumber", .arr [])]),
      ("clinicalSummary", .obj [("primaryDiagnosis", .arr [])])])).1 = true
    ∧ getMissingRequiredFields (.obj [
      ("patientID", .arr []),
      ("patientInformation", .obj [
        ("patientName", .obj [("firstName", .arr []), ("lastName", .arr [])]),
        ("gender", .arr []),
        ("dob", .arr []),
        ("patientInformationPhoneNumber", .arr [])]),
      ("clinicalSummary", .obj [("primaryDiagnosis", .arr [])])]) ≠ [] :=
  ⟨rfl, by decide⟩

/-! ## C7: conflict detection and absence -/

theorem normalizeNameVal_str (s : String) :
    normalizeNameVal (.str s) = .ok (pyLower (pyStrip s)) := by
  unfold normalizeNameVal
  by_cases h : s = ""
  · subst h; rfl
  · rw [if_pos (by simp [pyTruthy, h])]

/-- **C7 (amended)**: `check_name_conflict` returns the empty string iff
the two names match after trimming and case-folding (missing components
normalize to the empty string) — in particular, when the existing
record has *no* patient name on file, a conflict message *is* produced
unless the extracted first and last names also normalize to empty.
`check_hospital_conflict` behaves as claimed: empty whenever either
side's hospital name is missing/falsy, and the formatted conflict
exactly when both are present and differ after trimming and
case-folding.  (`fmt` stands for the `field_conflict` template
formatting, which the functions receive as an argument.) -/
theorem conflict_detector_semantics :
    (∀ (fmt : String → JVal → JVal → String → String) (f1 l1 f2 l2 : String),
      checkNameConflict fmt (nameRecord f1 l1) (nameRecord f2 l2) =
        .ok (if pyLower (pyStrip f1) = pyLower (pyStrip f2)
                ∧ pyLower (pyStrip l1) = pyLower (pyStrip l2)
             then ""
             else fmt "patientInformation.patientName"
                (.obj [("firstName", .str f1), ("lastName", .str l1)])
                (.obj [("firstName", .str f2), ("lastName", .str l2)])
                "the extracted name does not match the existing patient record"))
    ∧ (∀ (fmt : String → JVal → JVal → String → String) (f1 l1 : String),
      checkNameConflict fmt (nameRecord f1 l1) (.obj []) =
        .ok (if pyLower (pyStrip f1) = "" ∧ pyLower (pyStrip l1) = ""
             then ""
             else fmt "patientInformation.patientName"
                (.obj [("firstName", .str f1), ("lastName", .str l1)])
                (.obj [])
                "the extracted name does not match the existing patient record"))
    ∧ (∀ (fmt : String → JVal → JVal → String → String) (t e : JVal),
      pyTruthy (getFieldValue e "hospital.hospitalName") = false →
      checkHospitalConflict fmt t e = .ok "")
    ∧ (∀ (fmt : String → JVal → JVal → String → String) (t e : JVal),
      pyTruthy (getFieldValue t "hospital.hospitalName") = false →
      checkHospitalConflict fmt t e = .ok "")
    ∧ (∀ (fmt : String → JVal → JVal → String → String) (t e : JVal) (a b : String),
      getFieldValue t "hospital.hospitalName" = .str a →
      getFieldValue e "hospital.hospitalName" = .str b →
      a ≠ "" → b ≠ "" →
      checkHospitalConflict fmt t e =
        .ok (if pyLower (pyStrip a) = pyLower (pyStrip b)
             then ""
             else fmt "hospital.hospitalName" (.str a) (.str b)
               "the hospital name extracted from OCR does not match the trusted existing patient record")) := by
  refine ⟨?_, ?_, ?_, ?_, ?_⟩
  · intro fmt f1 l1 f2 l2
    by_cases h1 : pyLower (pyStrip f1) = pyLower (pyStrip f2)
    · by_cases h2 : pyLower (pyStrip l1) = pyLower (pyStrip l2)
      · simp [checkNameConflict, isNameMatch, nameRecord, pyGetDefault, pyDictGet,
          objGet, objLookup, normalizeNameVal_str, Bind.bind, Except.bind,
          Pure.pure, Except.pure, Functor.map, Except.map, h1, h2]
      · simp [checkNameConflict, isNameMatch, nameRecord, pyGetDefault, pyDictGet,
          objGet, objLookup, normalizeNameVal_str, Bind.bind, Except.bind,
          Pure.pure, Except.pure, Functor.map, Except.map, h1, h2]
    · simp [checkNameConflict, isNameMatch, nameRecord, pyGetDefault, pyDictGet,
        objGet, objLookup, normalizeNameVal_str, Bind.bind, Except.bind,
        Pure.pure, Except.pure, Functor.map, Except.map, h1]
  · intro fmt f1 l1
    have hnull : normalizeNameVal .null = .ok "" := rfl
    by_cases h1 : pyLower (pyStrip f1) = ""
    · by_cases h2 : pyLower (pyStrip l1) = ""
      · simp [checkNameConflict, isNameMatch, nameRecord, pyGetDefault, pyDictGet,
          objGet, objLookup, normalizeNameVal_str, hnull, Bind.bind, Except.bind,
          Pure.pure, Except.pure, Functor.map, Except.map, h1, h2]
      · simp [checkNameConflict, isNameMatch, nameRecord, pyGetDefault, pyDictGet,
          objGet, objLookup, normalizeNameVal_str, hnull, Bind.bind, Except.bind,
          Pure.pure, Except.pure, Functor.map, Except.map, h1, h2]
    · simp [checkNameConflict, isNameMatch, nameRecord, pyGetDefault, pyDictGet,
        objGet, objLookup, normalizeNameVal_str, hnull, Bind.bind, Except.bind,
        Pure.pure, Except.pure, Functor.map, Except.map, h1]
  · intro fmt t e he
    simp [checkHospitalConflict, he, Pure.pure, Except.pure]
  · intro fmt t e ht
    by_cases he : pyTruthy (getFieldValue e "hospital.hospitalName") = true
    · simp [checkHospitalConflict, he, ht, Pure.pure, Except.pure]
    · rw [Bool.not_eq_true] at he
      simp [checkHospitalConflict, he, Pure.pure, Except.pure]
  · intro fmt t e a b ha hb hane hbne
    by_cases hcmp : pyLower (pyStrip a) = pyLower (pyStrip b)
    · simp [checkHospitalConflict, ha, hb, pyTruthy, hane, hbne, Bind.bind,
        Except.bind, Pure.pure, Except.pure, hcmp]
    · simp [checkHospitalConflict, ha, hb, pyTruthy, hane, hbne, Bind.bind,
        Except.bind, Pure.pure, Except.pure, hcmp]

/-- Witness for C7 (amended): the no-name-on-file equation at
`("John", "Doe")` with a concrete formatter, and a missing-hospital
case. -/
theorem conflict_detector_semantics_witness :
    checkNameConflict (fun fp _ _ _ => "conflict at " ++ fp)
      (nameRecord "John" "Doe") (.obj []) =
      .ok (if pyLower (pyStrip "John") = "" ∧ pyLower (pyStrip "Doe") = ""
           then ""
           else "conflict at patientInformation.patientName")
    ∧ checkHospitalConflict (fun fp _ _ _ => "conflict at " ++ fp)
        (.obj [("hospital", .obj [("hospitalName", .str "Mercy")])]) (.obj []) = .ok "" :=
  ⟨conflict_detector_semantics.2.1 (fun fp _ _ _ => "conflict at " ++ fp) "John" "Doe",
   conflict_detector_semantics.2.2.1 (fun fp _ _ _ => "conflict at " ++ fp)
     (.obj [("hospital", .obj [("hospitalName", .str "Mercy")])]) (.obj []) rfl⟩

/-- **C7 counterexample**: with the existing record having no patient
name on file and a concrete non-empty conflict template (the
knowledge-base `field_conflict` template is likewise non-empty),
`check_name_conflict` returns a non-empty conflict message for the
extracted name `John Doe` — absence on the existing side is treated as
a mismatch, not as "nothing to compare against". -/
theorem check_name_conflict_absence_counterexample :
    checkNameConflict (fun fp _ _ _ => "Conflict detected in field " ++ fp)
      (nameRecord "John" "Doe") (.obj [])
      = .ok "Conflict detected in field patientInformation.patientName"
    ∧ "Conflict detected in field patientInformation.patientName" ≠ "" :=
  ⟨rfl, by decide⟩

/-! ## C8: orchestrator failure semantics -/

/-- **C8**: outside the idempotency guard, a falsy OCR result fails the
document with the descriptive error after exactly one OCR call and no
retry and no TRF insert; an exception from the extraction step fails the
document, propagates the error string, and inserts no reconciled record
into the TRF-data store. -/
theorem process_document_failure_paths (docStatus : String) (force : Bool)
    (h : ¬(docStatus = "processed" ∧ force = false)) :
    (∀ extraction, processDocument docStatus force none extraction =
      ⟨"failed", some "OCR processing failed to return results",
        1, 0, none, ["processing", "failed"]⟩)
    ∧ (∀ ocr e, processDocument docStatus force (some ocr) (.error e) =
      ⟨"failed", some ("Field extraction failed: " ++ e),
        1, 1, none, ["processing", "ocr_processed", "failed"]⟩) := by
  constructor
  · intro extraction
    unfold processDocument
    rw [if_neg h]
  · intro ocr e
    unfold processDocument
    rw [if_neg h]

/-- Witness for C8 on a freshly uploaded document. -/
theorem process_document_failure_paths_witness :
    processDocument "uploaded" false none (.ok (.obj [])) =
      ⟨"failed", some "OCR processing failed to return results",
        1, 0, none, ["processing", "failed"]⟩
    ∧ processDocument "uploaded" false (some (.str "text")) (.error "boom") =
      ⟨"failed", some ("Field extraction failed: " ++ "boom"),
        1, 1, none, ["processing", "ocr_processed", "failed"]⟩ :=
  ⟨(process_document_failure_paths "uploaded" false (by simp)).1 (.ok (.obj [])),
   (process_document_failure_paths "uploaded" false (by simp)).2 (.str "text") "boom"⟩

end GOCR
